import Mathlib

/-!
Verification of the lazylog structured-logging core (github.com/chmenegatti/lazylog)
against its natural-language specification.

The Go source is shallowly embedded:
* Go `error` values are `Option Err` results (`none` = success) or `Except Err`.
* Go maps are association lists with `aget` / `aset` (unique keys in any map
  produced by the code, since `aset` replaces an existing binding).
* Machine-dependent externals (time formatting, `fmt` rendering, `json.Marshal`)
  are uninterpreted function parameters collected in `GoEnv`.
* The dispatch pipeline (`dispatchEntry` in lazylog.go) is embedded as a pure
  function that threads the mutable `*Entry` through the hook callbacks and
  returns, alongside the final entry, the ordered trace of observable actions
  (hook invocations, transport write attempts, error-hook invocations).
-/

/-- Go `error` payloads (the messages carried by the error values). -/
abbrev Err := String

/-- Go `type Level int` from the level registry source file. -/
abbrev Level := Int

/-- Built-in level `DEBUG = iota = 0`. -/
def DEBUG : Level := 0

/-- Built-in level `INFO = 1`. -/
def INFO : Level := 1

/-- Built-in level `WARN = 2`. -/
def WARN : Level := 2

/-- Built-in level `ERROR = 3`. -/
def ERROR : Level := 3

/-- Go map lookup `v, ok := m[k]` on a map modelled as an association list. -/
def aget {κ α : Type} [DecidableEq κ] : List (κ × α) → κ → Option α
  | [], _ => none
  | (k, v) :: rest, k0 => if k = k0 then some v else aget rest k0

/-- Go map assignment `m[k] = v`: replace the existing binding, else append. -/
def aset {κ α : Type} [DecidableEq κ] : List (κ × α) → κ → α → List (κ × α)
  | [], k0, v0 => [(k0, v0)]
  | (k, v) :: rest, k0, v0 =>
    if k = k0 then (k0, v0) :: rest else (k, v) :: aset rest k0 v0

theorem aget_aset_same {κ α : Type} [DecidableEq κ] (l : List (κ × α)) (k : κ) (v : α) :
    aget (aset l k v) k = some v := by
  induction l with
  | nil => simp [aset, aget]
  | cons hd tl ih =>
    obtain ⟨k', v'⟩ := hd
    by_cases hk : k' = k
    · simp [aset, hk, aget]
    · simp [aset, hk, aget, ih]

theorem aget_aset_ne {κ α : Type} [DecidableEq κ] (l : List (κ × α)) (k0 k : κ) (v : α)
    (h : k0 ≠ k) : aget (aset l k0 v) k = aget l k := by
  induction l with
  | nil => simp [aset, aget, h]
  | cons hd tl ih =>
    obtain ⟨k', v'⟩ := hd
    by_cases hk : k' = k0
    · subst hk
      simp [aset, aget, h]
    · simp [aset, hk, aget, ih]

theorem aget_eq_none_of_not_mem {κ α : Type} [DecidableEq κ] (l : List (κ × α)) (k : κ)
    (h : k ∉ l.map Prod.fst) : aget l k = none := by
  induction l with
  | nil => rfl
  | cons hd tl ih =>
    obtain ⟨k', v'⟩ := hd
    simp only [List.map_cons, List.mem_cons] at h
    push_neg at h
    have hne : ¬k' = k := fun hk => h.1 hk.symm
    simp [aget, hne, ih h.2]

/-- Go `strings.ToUpper` restricted to ASCII, per character. -/
def upChar (c : Char) : Char :=
  if 97 ≤ c.toNat ∧ c.toNat ≤ 122 then Char.ofNat (c.toNat - 32) else c

/-- Go `strings.ToUpper` (modelled on ASCII strings). -/
def asciiUpper (s : String) : String := String.mk (s.data.map upChar)

/-- The two process-wide maps of the Level Registry (`levelNames`, `levelValues`). -/
structure Registry where
  levelNames : List (Level × String)
  levelValues : List (String × Level)

/-- The pre-registered built-in levels, as initialized in the source. -/
def builtinRegistry : Registry :=
  { levelNames := [(DEBUG, "DEBUG"), (INFO, "INFO"), (WARN, "WARN"), (ERROR, "ERROR")],
    levelValues := [("DEBUG", DEBUG), ("INFO", INFO), ("WARN", WARN), ("ERROR", ERROR)] }

/-- `RegisterLevel(name, value)`: sets `levelNames[value] = name` and
`levelValues[name] = value` (and nothing else). -/
def RegisterLevel (r : Registry) (name : String) (value : Level) : Registry :=
  { levelNames := aset r.levelNames value name,
    levelValues := aset r.levelValues name value }

/-- `Level.String()`: registered name, or the sentinel `"UNKNOWN"`. -/
def levelString (r : Registry) (l : Level) : String :=
  (aget r.levelNames l).getD "UNKNOWN"

/-- `ParseLevel(lvl)`: case-insensitive lookup, defaulting to `INFO`. -/
def ParseLevel (r : Registry) (lvl : String) : Level :=
  (aget r.levelValues (asciiUpper lvl)).getD INFO

/-- Field values (`interface{}` payloads stored in an entry's field map):
integer and string leaves, and nested `map[string]interface{}` values. -/
inductive FValue where
  | int (n : Int)
  | str (s : String)
  | fmap (m : List (String × FValue))

/-- A Go `map[string]interface{}` of log fields. -/
abbrev Fields := List (String × FValue)

/-- A log `Entry`. `fields = none` models a nil Go map (distinct from empty). -/
structure Entry where
  level : Level
  timestamp : Nat
  message : String
  fields : Option Fields

/-- `mergeFields(dst, src)` from the formatter source: recursive key-by-key
merge, recursing only when both sides hold a nested map at the same key. -/
def mergeFields (dst src : Fields) : Fields :=
  match src with
  | [] => dst
  | (k, v) :: rest =>
    match v with
    | FValue.fmap vm =>
      match aget dst k with
      | some (FValue.fmap dm) => mergeFields (aset dst k (FValue.fmap (mergeFields dm vm))) rest
      | _ => mergeFields (aset dst k (FValue.fmap vm)) rest
    | _ => mergeFields (aset dst k v) rest
termination_by sizeOf src
decreasing_by
  all_goals simp_wf
  all_goals omega

/-- The merge performed by `ChildLogger.logWithMergedFields`: copy the bound
fields into a fresh map, then copy the first call-site map (if any) over it. -/
def childMergedFields (bound : Fields) (callFields : Option Fields) : Fields :=
  let merged := bound.foldl (fun m kv => aset m kv.1 kv.2) []
  match callFields with
  | some fs => fs.foldl (fun m kv => aset m kv.1 kv.2) merged
  | none => merged

/-- Uninterpreted external library functions the formatters call, plus a
snapshot of the global level registry read by `Level.String()`:
`tsFmt` is `time.Time.Format(layout)`, `showV` is `fmt`-style `%v` rendering,
`marshal` is `json.Marshal` on a field map. -/
structure GoEnv where
  tsFmt : Nat → String → String
  showV : FValue → String
  marshal : Fields → Except Err String
  reg : Registry

/-- Go layout constant `time.RFC3339`. -/
def rfc3339 : String := "2006-01-02T15:04:05Z07:00"

/-- Go layout constant `time.RFC3339Nano`. -/
def rfc3339nano : String := "2006-01-02T15:04:05.999999999Z07:00"

/-- A formatter as the transports and the dispatch engine see it, with the
entry threaded to expose any in-place mutation `Format` performs on `*Entry`. -/
abbrev EntryFmt := Entry → Entry × Except Err String

/-- `TextFormatter` configuration. -/
structure TextFormatter where
  TimestampFormat : String

/-- `TextFormatter.Format`: timestamp, `[LEVEL]`, message, then `key=value `
pairs when the field map is non-empty, then a newline. Never errors and never
writes to the entry. -/
def TextFormatter.format (env : GoEnv) (f : TextFormatter) (e : Entry) :
    Entry × Except Err String :=
  let layout := if f.TimestampFormat = "" then rfc3339 else f.TimestampFormat
  let fieldsPart :=
    match e.fields with
    | some fs =>
      if fs.length > 0 then
        " " ++ String.join (fs.map (fun kv => kv.1 ++ "=" ++ env.showV kv.2 ++ " "))
      else ""
    | none => ""
  (e, Except.ok (env.tsFmt e.timestamp layout ++ " " ++ "[" ++
    levelString env.reg e.level ++ "]" ++ " " ++ e.message ++ fieldsPart ++ "\n"))

/-- `JSONFormatter.Format`: builds the top-level object with `timestamp`,
`level`, `message`, merges the entry fields in with `mergeFields`, then
marshals. Never writes to the entry. -/
def JSONFormatter.format (env : GoEnv) (e : Entry) : Entry × Except Err String :=
  let data : Fields :=
    [("timestamp", FValue.str (env.tsFmt e.timestamp rfc3339nano)),
     ("level", FValue.str (levelString env.reg e.level)),
     ("message", FValue.str e.message)]
  let data := mergeFields data (e.fields.getD [])
  (e, match env.marshal data with
      | Except.error err => Except.error err
      | Except.ok b => Except.ok (b ++ "\n"))

/-- The `levelEmojis` map, with the Go map-lookup default `""`. -/
def levelEmojis (l : Level) : String :=
  if l = DEBUG then "🐛"
  else if l = INFO then "ℹ️"
  else if l = WARN then "⚠️"
  else if l = ERROR then "❌"
  else ""

/-- `EmojiFormatter.Format`: materializes a field map when the entry's is nil,
stores the emoji under key `"emoji"` in the entry itself, then delegates to the
base formatter. The write to `entry.Fields` is visible to the caller. -/
def EmojiFormatter.format (base : EntryFmt) (e : Entry) : Entry × Except Err String :=
  let emoji := levelEmojis e.level
  let fs := e.fields.getD []
  base { e with fields := some (aset fs "emoji" (FValue.str emoji)) }

/-- The concrete transport kinds the engine's `writeFormatted` type-switch
recognizes, plus `other` for every other `Transport` implementation
(e.g. `SyslogTransport`, `TransportWithFilter`, user transports). -/
inductive TKind where
  | writer
  | console
  | file
  | lumberjack
  | other
deriving DecidableEq

/-- A transport as the dispatch engine sees it: its `MinLevel()`, the behavior
of its `WriteLog` (returned Go error), its concrete kind, and the behavior of a
raw write to its underlying sink (used by the per-call formatter override). -/
structure Transport where
  kind : TKind
  minLevel : Level
  writeLog : Entry → Option Err
  sinkWrite : String → Option Err

/-- A pure per-call override formatter as used on the dispatch path
(`formatter.Format(entry)` returning bytes or an error). -/
abbrev Fmt := Entry → Except Err String

/-- A before/after hook `func(entry *Entry)`: it may mutate the entry in
place, modelled as an entry transformer. -/
abbrev Hook := Entry → Entry

/-- A transport error hook `func(entry *Entry, transport Transport, err error)`;
the transport argument is identified by its index in the snapshot. It receives
the entry by pointer, so it is modelled as an entry transformer too. -/
abbrev ErrHook := Entry → Nat → Err → Entry

/-- A point-in-time copy of the logger's mutable configuration
(`logSnapshot` in the source). -/
structure Snapshot where
  transports : List Transport
  beforeHooks : List Hook
  afterHooks : List Hook
  errorHooks : List ErrHook
  stEnabled : Bool
  stLevels : Level → Bool

/-- One observable step of a dispatch: a before-hook invocation, a write
attempt on transport `j`, an error-hook invocation `(hook i, transport j,
error)`, or an after-hook invocation. -/
inductive Act where
  | beforeHook (i : Nat)
  | write (j : Nat)
  | errHook (i : Nat) (j : Nat) (e : Err)
  | afterHook (i : Nat)
deriving DecidableEq

/-- Whether an action is a transport write attempt. -/
def isWrite : Act → Bool
  | Act.write _ => true
  | _ => false

/-- Whether an action is an error-hook invocation. -/
def isErrAction : Act → Bool
  | Act.errHook _ _ _ => true
  | _ => false

/-- Run the before-hook loop of `dispatchEntry`, threading the entry and
recording one action per hook, numbering hooks from `i`. -/
def runBefore : List Hook → Nat → Entry → Entry × List Act
  | [], _, e => (e, [])
  | h :: hs, i, e =>
    let r := runBefore hs (i + 1) (h e)
    (r.1, Act.beforeHook i :: r.2)

/-- Run the after-hook loop of `dispatchEntry`. -/
def runAfter : List Hook → Nat → Entry → Entry × List Act
  | [], _, e => (e, [])
  | h :: hs, i, e =>
    let r := runAfter hs (i + 1) (h e)
    (r.1, Act.afterHook i :: r.2)

/-- Run the inner error-hook loop for a failed write on transport `j` with
error `err`, numbering hooks from `i`. -/
def runErrHooks : List ErrHook → Nat → Entry → Nat → Err → Entry × List Act
  | [], _, e, _, _ => (e, [])
  | h :: hs, i, e, j, err =>
    let r := runErrHooks hs (i + 1) (h e j err) j err
    (r.1, Act.errHook i j err :: r.2)

/-- `writeFormatted(t, data)`: type-switch writing pre-formatted bytes to the
raw sink of the four recognized transport kinds; for any other kind it falls
back to the transport's normal `WriteLog` on a freshly constructed
`&Entry{Message: string(data)}` (zero level, zero timestamp, nil fields). -/
def writeFormatted (t : Transport) (data : String) : Option Err :=
  match t.kind with
  | TKind.writer => t.sinkWrite data
  | TKind.console => t.sinkWrite data
  | TKind.file => t.sinkWrite data
  | TKind.lumberjack => t.sinkWrite data
  | TKind.other => t.writeLog { level := 0, timestamp := 0, message := data, fields := none }

/-- One write attempt of the fan-out loop body: with a per-call formatter
override, format and on success write the bytes via `writeFormatted` (a
formatting error becomes the attempt's error); otherwise call the transport's
own `WriteLog`. -/
def attemptWrite (t : Transport) (e : Entry) (fopt : Option Fmt) : Option Err :=
  match fopt with
  | some f =>
    match f e with
    | Except.error fmtErr => some fmtErr
    | Except.ok formatted => writeFormatted t formatted
  | none => t.writeLog e

/-- The transport fan-out loop of `dispatchEntry`: for each transport (numbered
from `k`) whose minimum level permits, attempt exactly one write; on failure
run every error hook; failures never stop the loop. -/
def fanout (ehooks : List ErrHook) (fopt : Option Fmt) :
    Entry → Nat → List Transport → Entry × List Act
  | e, _, [] => (e, [])
  | e, k, t :: ts =>
    if t.minLevel ≤ e.level then
      match attemptWrite t e fopt with
      | none =>
        let r := fanout ehooks fopt e (k + 1) ts
        (r.1, Act.write k :: r.2)
      | some err =>
        let re := runErrHooks ehooks 0 e k err
        let r := fanout ehooks fopt re.1 (k + 1) ts
        (r.1, Act.write k :: (re.2 ++ r.2))
    else fanout ehooks fopt e (k + 1) ts

/-- `dispatchEntry(snap, entry, formatter)`: before-hooks, then the transport
fan-out, then after-hooks; returns the final entry and the ordered action
trace. -/
def dispatchEntry (snap : Snapshot) (entry : Entry) (fopt : Option Fmt) :
    Entry × List Act :=
  let rb := runBefore snap.beforeHooks 0 entry
  let rf := fanout snap.errorHooks fopt rb.1 0 snap.transports
  let ra := runAfter snap.afterHooks 0 rf.1
  (ra.1, rb.2 ++ rf.2 ++ ra.2)

/-- Entry assembly shared by `Logger.log` and `Logger.logWithFields`: level,
current time, message, the caller-supplied field map (nil for `Logger.log`),
and — when the snapshotted stacktrace policy covers the level — the captured
stack under the reserved `"stacktrace"` field key (materializing the field map
when nil). `now` and `stack` stand for `time.Now()` and `debug.Stack()`. -/
def assembleLogEntry (snap : Snapshot) (now : Nat) (stack : String) (level : Level)
    (message : String) (fields : Option Fields) : Entry :=
  let entry : Entry := { level := level, timestamp := now, message := message, fields := fields }
  if snap.stEnabled && snap.stLevels level then
    { entry with fields := some (aset (entry.fields.getD []) "stacktrace" (FValue.str stack)) }
  else entry

/-- `Logger.log`: assemble the entry (no caller fields), then dispatch with no
formatter override. -/
def logM (snap : Snapshot) (now : Nat) (stack : String) (level : Level)
    (message : String) : Entry × List Act :=
  dispatchEntry snap (assembleLogEntry snap now stack level message none) none

/-- `Logger.logWithFields`: assemble the entry with the caller-supplied field
map, then dispatch with no formatter override. -/
def logWithFieldsM (snap : Snapshot) (now : Nat) (stack : String) (level : Level)
    (message : String) (fields : Option Fields) : Entry × List Act :=
  dispatchEntry snap (assembleLogEntry snap now stack level message fields) none

/-- How a logging call hands control back to its caller: a normal return, a
process exit (`os.Exit`), or a Go panic. -/
inductive Outcome where
  | normal
  | exit (code : Nat)
  | panicked (msg : String)
deriving DecidableEq

/-- `Logger.Debug`: full dispatch, then a normal return. -/
def debugRun (snap : Snapshot) (now : Nat) (stack : String) (msg : String) :
    (Entry × List Act) × Outcome :=
  (logM snap now stack DEBUG msg, Outcome.normal)

/-- `Logger.Info`: full dispatch, then a normal return. -/
def infoRun (snap : Snapshot) (now : Nat) (stack : String) (msg : String) :
    (Entry × List Act) × Outcome :=
  (logM snap now stack INFO msg, Outcome.normal)

/-- `Logger.Warn`: full dispatch, then a normal return. -/
def warnRun (snap : Snapshot) (now : Nat) (stack : String) (msg : String) :
    (Entry × List Act) × Outcome :=
  (logM snap now stack WARN msg, Outcome.normal)

/-- `Logger.Error`: full dispatch, then a normal return. -/
def errorRun (snap : Snapshot) (now : Nat) (stack : String) (msg : String) :
    (Entry × List Act) × Outcome :=
  (logM snap now stack ERROR msg, Outcome.normal)

/-- `Logger.Fatal`: dispatch at ERROR with an injected stacktrace field, then
`os.Exit(1)`. -/
def fatalRun (snap : Snapshot) (now : Nat) (stack : String) (msg : String)
    (fields : Option Fields) : (Entry × List Act) × Outcome :=
  let flds := aset (fields.getD []) "stacktrace" (FValue.str stack)
  (logWithFieldsM snap now stack ERROR msg (some flds), Outcome.exit 1)

/-- `Logger.Panic`: dispatch at ERROR with an injected stacktrace field, then
`panic(message)`. -/
def panicRun (snap : Snapshot) (now : Nat) (stack : String) (msg : String)
    (fields : Option Fields) : (Entry × List Act) × Outcome :=
  let flds := aset (fields.getD []) "stacktrace" (FValue.str stack)
  (logWithFieldsM snap now stack ERROR msg (some flds), Outcome.panicked msg)

/-- The indices (numbered from `k`) of the transports whose minimum level
permits an event at level `lvl`. -/
def permittedIdx (lvl : Level) : Nat → List Transport → List Nat
  | _, [] => []
  | k, t :: ts =>
    if t.minLevel ≤ lvl then k :: permittedIdx lvl (k + 1) ts
    else permittedIdx lvl (k + 1) ts

/-- The minimal fixed-layout fallback line the concrete transports write when
their formatter errors: `timestamp [LEVEL] message` plus a newline. -/
def fallbackLine (env : GoEnv) (e : Entry) : String :=
  env.tsFmt e.timestamp "2006-01-02T15:04:05Z07:00" ++ " [" ++
    levelString env.reg e.level ++ "] " ++ e.message ++ "\n"

/-- The default `&TextFormatter{}` some transports substitute for a nil
formatter, viewed as a pure formatting function. -/
def textFmtDefault (env : GoEnv) : Fmt :=
  fun e => (TextFormatter.format env { TimestampFormat := "" } e).2

/-- `ConsoleTransport.WriteLog`: format (defaulting a nil formatter to
`TextFormatter`); on a formatting error write the fallback line to the output
stream and return that write's error; otherwise write the formatted bytes.
Returns the strings written to the sink paired with the returned error, given
the sink's write behavior `sink`. -/
def consoleWriteLog (env : GoEnv) (fmt? : Option Fmt) (sink : String → Option Err)
    (e : Entry) : List String × Option Err :=
  let f := fmt?.getD (textFmtDefault env)
  match f e with
  | Except.error _ =>
    let line := fallbackLine env e
    ([line], sink line)
  | Except.ok bytes => ([bytes], sink bytes)

/-- `FileTransport.WriteLog` (formatter used directly, no nil default): same
fallback-on-format-error shape as the console transport. -/
def fileWriteLog (env : GoEnv) (f : Fmt) (sink : String → Option Err)
    (e : Entry) : List String × Option Err :=
  match f e with
  | Except.error _ =>
    let line := fallbackLine env e
    ([line], sink line)
  | Except.ok bytes => ([bytes], sink bytes)

/-- `WriterTransport.WriteLog` (formatter used directly): same
fallback-on-format-error shape. -/
def writerWriteLog (env : GoEnv) (f : Fmt) (sink : String → Option Err)
    (e : Entry) : List String × Option Err :=
  match f e with
  | Except.error _ =>
    let line := fallbackLine env e
    ([line], sink line)
  | Except.ok bytes => ([bytes], sink bytes)

/-- `LumberjackTransport.WriteLog` (nil formatter defaults to
`TextFormatter`): same fallback-on-format-error shape. -/
def lumberjackWriteLog (env : GoEnv) (fmt? : Option Fmt) (sink : String → Option Err)
    (e : Entry) : List String × Option Err :=
  let f := fmt?.getD (textFmtDefault env)
  match f e with
  | Except.error _ =>
    let line := fallbackLine env e
    ([line], sink line)
  | Except.ok bytes => ([bytes], sink bytes)

/-- The syslog priority method selected by `SyslogTransport.WriteLog`'s switch
on the entry level. -/
inductive SysPrio where
  | debugPrio
  | warningPrio
  | errPrio
  | infoPrio
deriving DecidableEq

/-- `SyslogTransport.WriteLog` (nil formatter defaults to `TextFormatter`): a
formatting error is returned as-is, with nothing written to the syslog writer;
on success the message goes to the priority method matching the level. -/
def syslogWriteLog (env : GoEnv) (fmt? : Option Fmt)
    (sink : SysPrio → String → Option Err) (e : Entry) :
    List (SysPrio × String) × Option Err :=
  let f := fmt?.getD (textFmtDefault env)
  match f e with
  | Except.error err => ([], some err)
  | Except.ok bytes =>
    let msg := bytes
    let p :=
      if e.level = DEBUG then SysPrio.debugPrio
      else if e.level = WARN then SysPrio.warningPrio
      else if e.level = ERROR then SysPrio.errPrio
      else SysPrio.infoPrio
    ([(p, msg)], sink p msg)

/-- Observation helper: look up key `k2` inside the nested map stored under
key `k1` of a field map. -/
def agetNested (fs : Fields) (k1 k2 : String) : Option FValue :=
  match aget fs k1 with
  | some (FValue.fmap m) => aget m k2
  | _ => none

theorem runBefore_trace (hs : List Hook) : ∀ (i : Nat) (e : Entry),
    (runBefore hs i e).2 = (List.range' i hs.length).map Act.beforeHook := by
  induction hs with
  | nil => intro i e; rfl
  | cons h t ih => intro i e; simp [runBefore, List.range', ih]

theorem runAfter_trace (hs : List Hook) : ∀ (i : Nat) (e : Entry),
    (runAfter hs i e).2 = (List.range' i hs.length).map Act.afterHook := by
  induction hs with
  | nil => intro i e; rfl
  | cons h t ih => intro i e; simp [runAfter, List.range', ih]

theorem runErrHooks_trace (hs : List ErrHook) : ∀ (i : Nat) (e : Entry) (j : Nat) (err : Err),
    (runErrHooks hs i e j err).2
      = (List.range' i hs.length).map (fun n => Act.errHook n j err) := by
  induction hs with
  | nil => intro i e j err; rfl
  | cons h t ih => intro i e j err; simp [runErrHooks, List.range', ih]

theorem runBefore_level : ∀ (hs : List Hook),
    (∀ h ∈ hs, ∀ e, (h e).level = e.level) →
    ∀ (i : Nat) (e : Entry), ((runBefore hs i e).1).level = e.level
  | [], _, _, _ => rfl
  | h :: t, hb, i, e => by
    simp only [runBefore]
    rw [runBefore_level t (fun h' hm e' => hb h' (List.mem_cons_of_mem _ hm) e') (i + 1) (h e)]
    exact hb h (List.mem_cons_self _ _) e

theorem runErrHooks_level : ∀ (hs : List ErrHook),
    (∀ h ∈ hs, ∀ e j err, (h e j err).level = e.level) →
    ∀ (i : Nat) (e : Entry) (j : Nat) (err : Err),
      ((runErrHooks hs i e j err).1).level = e.level
  | [], _, _, _, _, _ => rfl
  | h :: t, hb, i, e, j, err => by
    simp only [runErrHooks]
    rw [runErrHooks_level t (fun h' hm => hb h' (List.mem_cons_of_mem _ hm)) (i + 1)]
    exact hb h (List.mem_cons_self _ _) e j err

theorem fanout_level (ehooks : List ErrHook) (fopt : Option Fmt)
    (herr : ∀ h ∈ ehooks, ∀ e j err, (h e j err).level = e.level) :
    ∀ (ts : List Transport) (e : Entry) (k : Nat),
      ((fanout ehooks fopt e k ts).1).level = e.level := by
  intro ts
  induction ts with
  | nil => intro e k; rfl
  | cons t rest ih =>
    intro e k
    by_cases hp : t.minLevel ≤ e.level
    · cases hw : attemptWrite t e fopt with
      | none => simp only [fanout, if_pos hp, hw]; exact ih e (k + 1)
      | some err =>
        simp only [fanout, if_pos hp, hw]
        rw [ih _ (k + 1), runErrHooks_level ehooks herr]
    · simp only [fanout, if_neg hp]; exact ih e (k + 1)

theorem filter_isWrite_errBlock (l : List Nat) (j : Nat) (err : Err) :
    (l.map (fun n => Act.errHook n j err)).filter isWrite = [] := by
  induction l with
  | nil => rfl
  | cons a t ih => simp [isWrite, ih]

theorem fanout_writes (ehooks : List ErrHook) (fopt : Option Fmt)
    (herr : ∀ h ∈ ehooks, ∀ e j err, (h e j err).level = e.level) :
    ∀ (ts : List Transport) (e : Entry) (k : Nat),
      ((fanout ehooks fopt e k ts).2).filter isWrite
        = (permittedIdx e.level k ts).map Act.write := by
  intro ts
  induction ts with
  | nil => intro e k; rfl
  | cons t rest ih =>
    intro e k
    by_cases hp : t.minLevel ≤ e.level
    · cases hw : attemptWrite t e fopt with
      | none =>
        simp only [fanout, if_pos hp, hw, permittedIdx, List.filter_cons, isWrite,
          List.map_cons]
        simpa [isWrite] using ih e (k + 1)
      | some err =>
        simp only [fanout, if_pos hp, hw, permittedIdx, List.filter_cons, isWrite,
          List.map_cons, List.filter_append]
        rw [runErrHooks_trace, filter_isWrite_errBlock, List.nil_append, ih _ (k + 1),
          runErrHooks_level ehooks herr]
        simp
    · simp only [fanout, if_neg hp, permittedIdx]
      exact ih e (k + 1)

theorem fanout_actions (ehooks : List ErrHook) (fopt : Option Fmt) :
    ∀ (ts : List Transport) (e : Entry) (k : Nat),
      ∀ a ∈ (fanout ehooks fopt e k ts).2, isWrite a = true ∨ isErrAction a = true := by
  intro ts
  induction ts with
  | nil => intro e k a ha; cases ha
  | cons t rest ih =>
    intro e k a ha
    by_cases hp : t.minLevel ≤ e.level
    · cases hw : attemptWrite t e fopt with
      | none =>
        simp only [fanout, if_pos hp, hw, List.mem_cons] at ha
        rcases ha with rfl | ha
        · left; rfl
        · exact ih e (k + 1) a ha
      | some err =>
        simp only [fanout, if_pos hp, hw, List.mem_cons, List.mem_append] at ha
        rcases ha with rfl | ha | ha
        · left; rfl
        · rw [runErrHooks_trace] at ha
          rcases List.mem_map.mp ha with ⟨n, _, rfl⟩
          right; rfl
        · exact ih _ (k + 1) a ha
    · simp only [fanout, if_neg hp] at ha
      exact ih e (k + 1) a ha

theorem fanout_append (ehooks : List ErrHook) (fopt : Option Fmt) :
    ∀ (ts1 ts2 : List Transport) (e : Entry) (k : Nat),
      fanout ehooks fopt e k (ts1 ++ ts2)
        = ((fanout ehooks fopt (fanout ehooks fopt e k ts1).1 (k + ts1.length) ts2).1,
           (fanout ehooks fopt e k ts1).2
             ++ (fanout ehooks fopt (fanout ehooks fopt e k ts1).1 (k + ts1.length) ts2).2) := by
  intro ts1
  induction ts1 with
  | nil => intro ts2 e k; simp [fanout]
  | cons t rest ih =>
    intro ts2 e k
    have harith : k + (rest.length + 1) = (k + 1) + rest.length := by omega
    simp only [List.cons_append, List.length_cons, harith]
    by_cases hp : t.minLevel ≤ e.level
    · cases hw : attemptWrite t e fopt with
      | none =>
        simp only [fanout, if_pos hp, hw, List.append_eq, ih]
        simp [List.append_assoc]
      | some err =>
        simp only [fanout, if_pos hp, hw, List.append_eq, ih]
        simp [List.append_assoc]
    · simp only [fanout, if_neg hp, List.append_eq, ih]

theorem permittedIdx_ge (lvl : Level) : ∀ (ts : List Transport) (k m : Nat),
    m ∈ permittedIdx lvl k ts → k ≤ m := by
  intro ts
  induction ts with
  | nil => intro k m hm; cases hm
  | cons t rest ih =>
    intro k m hm
    by_cases hp : t.minLevel ≤ lvl
    · simp only [permittedIdx, if_pos hp, List.mem_cons] at hm
      rcases hm with rfl | hm
      · exact Nat.le_refl _
      · exact Nat.le_of_succ_le (ih (k + 1) m hm)
    · simp only [permittedIdx, if_neg hp] at hm
      exact Nat.le_of_succ_le (ih (k + 1) m hm)

theorem mem_permittedIdx (lvl : Level) : ∀ (ts : List Transport) (k j : Nat)
    (hj : j < ts.length),
    ((k + j) ∈ permittedIdx lvl k ts ↔ (ts.get ⟨j, hj⟩).minLevel ≤ lvl) := by
  intro ts
  induction ts with
  | nil => intro k j hj; cases hj
  | cons t rest ih =>
    intro k j hj
    cases j with
    | zero =>
      simp only [Nat.add_zero, List.get]
      by_cases hp : t.minLevel ≤ lvl
      · simp [permittedIdx, hp]
      · simp only [permittedIdx, if_neg hp]
        constructor
        · intro hm
          exact absurd (permittedIdx_ge lvl rest (k + 1) k hm) (by omega)
        · intro hm; exact absurd hm hp
    | succ n =>
      have hn : n < rest.length := by simpa using Nat.lt_of_succ_lt_succ hj
      have harith : k + (n + 1) = (k + 1) + n := by omega
      by_cases hp : t.minLevel ≤ lvl
      · simp only [permittedIdx, if_pos hp, List.mem_cons, List.get]
        constructor
        · intro hm
          rcases hm with hk | hm
          · omega
          · exact (ih (k + 1) n hn).mp (harith ▸ hm)
        · intro hm
          right
          exact harith ▸ (ih (k + 1) n hn).mpr hm
      · simp only [permittedIdx, if_neg hp, List.get]
        rw [harith]
        exact ih (k + 1) n hn

theorem aget_foldl_aset {κ α : Type} [DecidableEq κ] :
    ∀ (c m : List (κ × α)) (k : κ), (c.map Prod.fst).Nodup →
      aget (c.foldl (fun acc kv => aset acc kv.1 kv.2) m) k
        = (aget c k).elim (aget m k) some := by
  intro c
  induction c with
  | nil => intro m k _; rfl
  | cons hd rest ih =>
    obtain ⟨k0, v0⟩ := hd
    intro m k hnd
    simp only [List.map_cons, List.nodup_cons] at hnd
    simp only [List.foldl_cons]
    rw [ih (aset m k0 v0) k hnd.2]
    by_cases hk : k0 = k
    · subst hk
      have hz : aget rest k0 = none := aget_eq_none_of_not_mem rest k0 hnd.1
      simp [aget, hz, aget_aset_same, Option.elim]
    · simp [aget, hk, aget_aset_ne m k0 k v0 hk]

/-- Claim C4 (counterexample): the merge a derived logger performs is the
shallow copy loop of `ChildLogger.logWithMergedFields`, so merging call-site
fields `a ↦ {x:1, y:2}` over bound fields `a ↦ {x:0, z:9}` replaces the nested
map wholesale: `a.z` is lost, contradicting the claimed recursive result
`a ↦ {x:1, y:2, z:9}` (which only the JSON formatter's `mergeFields` produces
on the same input). -/
theorem childMerge_not_recursive_cex :
    agetNested (childMergedFields
        [("a", FValue.fmap [("x", FValue.int 0), ("z", FValue.int 9)])]
        (some [("a", FValue.fmap [("x", FValue.int 1), ("y", FValue.int 2)])])) "a" "z" = none
    ∧ agetNested (mergeFields
        [("a", FValue.fmap [("x", FValue.int 0), ("z", FValue.int 9)])]
        [("a", FValue.fmap [("x", FValue.int 1), ("y", FValue.int 2)])]) "a" "z"
        = some (FValue.int 9) := by
  refine ⟨rfl, ?_⟩
  simp [mergeFields, agetNested, aget, aset]

/-- Claim C4 (amended): when a derived (field-bound) logger logs, bound and
call-site fields are merged shallowly — a call-site key takes precedence
wholesale (its value, nested map or not, replaces the bound value; sibling keys
of the bound nested map are not preserved) and every other bound key is kept.
The recursive key-by-key merge applies only where `mergeFields` is used (the
JSON formatter path), where the spec's example `{a:{x:1,y:2}}` into
`{a:{x:0,z:9}}` does yield `x=1`, `y=2`, `z=9`. -/
theorem childMergedFields_shallow (bound c : Fields) (k : String)
    (hb : (bound.map Prod.fst).Nodup) (hc : (c.map Prod.fst).Nodup) :
    aget (childMergedFields bound (some c)) k = (aget c k).elim (aget bound k) some
    ∧ agetNested (mergeFields
        [("a", FValue.fmap [("x", FValue.int 0), ("z", FValue.int 9)])]
        [("a", FValue.fmap [("x", FValue.int 1), ("y", FValue.int 2)])]) "a" "x"
        = some (FValue.int 1)
    ∧ agetNested (mergeFields
        [("a", FValue.fmap [("x", FValue.int 0), ("z", FValue.int 9)])]
        [("a", FValue.fmap [("x", FValue.int 1), ("y", FValue.int 2)])]) "a" "y"
        = some (FValue.int 2)
    ∧ agetNested (mergeFields
        [("a", FValue.fmap [("x", FValue.int 0), ("z", FValue.int 9)])]
        [("a", FValue.fmap [("x", FValue.int 1), ("y", FValue.int 2)])]) "a" "z"
        = some (FValue.int 9) := by
  refine ⟨?_, ?_, ?_, ?_⟩
  case refine_2 => simp [mergeFields, agetNested, aget, aset]
  case refine_3 => simp [mergeFields, agetNested, aget, aset]
  case refine_4 => simp [mergeFields, agetNested, aget, aset]
  unfold childMergedFields
  rw [aget_foldl_aset c _ k hc, aget_foldl_aset bound [] k hb]
  cases aget c k <;> cases aget bound k <;> rfl

/-- Witness for the amended C4 theorem at a concrete input: call-site key `b`
wins, bound-only key `a` survives. -/
theorem childMergedFields_shallow_witness :
    aget (childMergedFields [("a", FValue.int 0), ("b", FValue.int 1)]
        (some [("b", FValue.int 7)])) "b" = some (FValue.int 7)
    ∧ aget (childMergedFields [("a", FValue.int 0), ("b", FValue.int 1)]
        (some [("b", FValue.int 7)])) "a" = some (FValue.int 0) := by
  have h1 := childMergedFields_shallow [("a", FValue.int 0), ("b", FValue.int 1)]
    [("b", FValue.int 7)] "b" (by decide) (by decide)
  have h2 := childMergedFields_shallow [("a", FValue.int 0), ("b", FValue.int 1)]
    [("b", FValue.int 7)] "a" (by decide) (by decide)
  exact ⟨h1.1, h2.1⟩

/-- Claim C6 (counterexample): registering level 5 under the lower-case name
"trace" breaks the round trip — `Name(5)` is `"trace"`, but `Parse` uppercases
its argument and the registry key is the verbatim `"trace"`, so
`Parse(Name(5))` falls back to the default `INFO = 1`, not `5`. -/
theorem parseLevel_roundtrip_cex :
    ¬ (ParseLevel (RegisterLevel builtinRegistry "trace" 5)
        (levelString (RegisterLevel builtinRegistry "trace" 5) 5) = 5) := by
  decide

/-- Claim C6 (amended): `Parse(Name(v)) = v` holds for a level `v` immediately
after it is registered under an all-uppercase name; `Parse` is
case-insensitive in the sense that it depends only on the uppercased argument;
and `Parse` of a name absent from the registry (after uppercasing) returns the
default `INFO` and never errors. -/
theorem parse_level_behavior :
    (∀ (r : Registry) (name : String) (v : Level), asciiUpper name = name →
        ParseLevel (RegisterLevel r name v) (levelString (RegisterLevel r name v) v) = v)
    ∧ (∀ (r : Registry) (s1 s2 : String), asciiUpper s1 = asciiUpper s2 →
        ParseLevel r s1 = ParseLevel r s2)
    ∧ (∀ (r : Registry) (s : String), aget r.levelValues (asciiUpper s) = none →
        ParseLevel r s = INFO) := by
  refine ⟨?_, ?_, ?_⟩
  · intro r name v hup
    have hname : levelString (RegisterLevel r name v) v = name := by
      simp [levelString, RegisterLevel, aget_aset_same]
    rw [hname]
    simp [ParseLevel, RegisterLevel, hup, aget_aset_same]
  · intro r s1 s2 h
    simp [ParseLevel, h]
  · intro r s h
    simp [ParseLevel, h, INFO]

/-- Witness for the amended C6 theorem: round trip after registering
`NOTICE = 10`, case-insensitive parse of `"error"`. -/
theorem parse_level_behavior_witness :
    ParseLevel (RegisterLevel builtinRegistry "NOTICE" 10)
      (levelString (RegisterLevel builtinRegistry "NOTICE" 10) 10) = 10
    ∧ ParseLevel builtinRegistry "error" = ERROR
    ∧ ParseLevel builtinRegistry "nosuch" = INFO := by
  refine ⟨parse_level_behavior.1 builtinRegistry "NOTICE" 10 (by decide), ?_, ?_⟩
  · exact (parse_level_behavior.2.1 builtinRegistry "error" "ERROR" (by decide)).trans
      (by decide)
  · exact parse_level_behavior.2.2 builtinRegistry "nosuch" (by decide)

/-- Claim C7 (counterexample): re-registering `"ERROR"` at value 10 updates
`Name(10)` and `Parse("ERROR")`, but `RegisterLevel` deletes nothing, so the
stale binding of the old value `ERROR = 3` remains observable through `Name`:
`Name(3)` still answers `"ERROR"`, contradicting the claim that no stale
binding from an earlier registration of the same name remains observable. -/
theorem registerLevel_stale_cex :
    levelString (RegisterLevel builtinRegistry "ERROR" 10) ERROR = "ERROR"
    ∧ ParseLevel (RegisterLevel builtinRegistry "ERROR" 10) "ERROR" = 10 := by
  decide

/-- Claim C7 (amended): `Register(name, value)` overwrites the forward
bindings — afterwards `Name(value) = name`, and `Parse(name) = value` when
`name` is all-uppercase (re-registering a built-in such as "ERROR" is legal
and takes effect immediately) — but it removes nothing: the name bound to any
other value and the value bound to any other name are exactly as before, so a
stale reverse binding of a re-registered name or value stays observable. -/
theorem registerLevel_rebinding (r : Registry) (name : String) (v : Level) :
    levelString (RegisterLevel r name v) v = name
    ∧ (asciiUpper name = name → ParseLevel (RegisterLevel r name v) name = v)
    ∧ (∀ w : Level, w ≠ v →
        aget (RegisterLevel r name v).levelNames w = aget r.levelNames w)
    ∧ (∀ s : String, s ≠ name →
        aget (RegisterLevel r name v).levelValues s = aget r.levelValues s) := by
  refine ⟨?_, ?_, ?_, ?_⟩
  · simp [levelString, RegisterLevel, aget_aset_same]
  · intro hup
    simp [ParseLevel, RegisterLevel, hup, aget_aset_same]
  · intro w hw
    exact aget_aset_ne r.levelNames v w name (fun hv => hw hv.symm)
  · intro s hs
    exact aget_aset_ne r.levelValues name s v (fun hn => hs hn.symm)

/-- Witness for the amended C7 theorem: re-register `"ERROR"` at 10; the new
bindings are live and the binding at the untouched value 3 is unchanged. -/
theorem registerLevel_rebinding_witness :
    levelString (RegisterLevel builtinRegistry "ERROR" 10) 10 = "ERROR"
    ∧ ParseLevel (RegisterLevel builtinRegistry "ERROR" 10) "ERROR" = 10
    ∧ aget (RegisterLevel builtinRegistry "ERROR" 10).levelNames ERROR
        = aget builtinRegistry.levelNames ERROR := by
  obtain ⟨h1, h2, h3, _⟩ := registerLevel_rebinding builtinRegistry "ERROR" 10
  exact ⟨h1, h2 (by decide), h3 ERROR (by decide)⟩

theorem assembleLogEntry_level (snap : Snapshot) (now : Nat) (stack : String)
    (level : Level) (message : String) (fields : Option Fields) :
    (assembleLogEntry snap now stack level message fields).level = level := by
  unfold assembleLogEntry
  by_cases h : snap.stEnabled && snap.stLevels level
  · simp [h]
  · simp [h]

/-- Claim C1: the dispatch pipeline of `dispatchEntry` runs every before-hook
first, in registration order, then the transport fan-out — in which each
transport of the snapshot whose minimum level permits the (hook-processed)
event is attempted exactly once, in registration order, and which consists of
nothing but write attempts and error-hook invocations — then every after-hook
in registration order; the synchronous call's complete trace is exactly this
concatenation, so control returns only after all of it. Error hooks are
assumed level-preserving (the spec lets hooks touch only fields/stacktrace). -/
theorem dispatch_pipeline_order (snap : Snapshot) (e : Entry) (fopt : Option Fmt)
    (herr : ∀ h ∈ snap.errorHooks, ∀ (e' : Entry) (j : Nat) (err : Err),
      (h e' j err).level = e'.level) :
    (dispatchEntry snap e fopt).2
      = (List.range' 0 snap.beforeHooks.length).map Act.beforeHook
        ++ (fanout snap.errorHooks fopt (runBefore snap.beforeHooks 0 e).1 0 snap.transports).2
        ++ (List.range' 0 snap.afterHooks.length).map Act.afterHook
    ∧ ((fanout snap.errorHooks fopt (runBefore snap.beforeHooks 0 e).1 0
          snap.transports).2).filter isWrite
        = (permittedIdx ((runBefore snap.beforeHooks 0 e).1).level 0 snap.transports).map
            Act.write
    ∧ ∀ a ∈ (fanout snap.errorHooks fopt (runBefore snap.beforeHooks 0 e).1 0
          snap.transports).2, isWrite a = true ∨ isErrAction a = true := by
  refine ⟨?_, ?_, ?_⟩
  · simp only [dispatchEntry]
    rw [runBefore_trace, runAfter_trace]
  · exact fanout_writes snap.errorHooks fopt herr snap.transports _ 0
  · exact fanout_actions snap.errorHooks fopt snap.transports _ 0

/-- Witness for the C1 theorem on a concrete two-transport snapshot (second
transport fails): hook block, fan-out block, after block, in that order. -/
theorem dispatch_pipeline_order_witness :
    (dispatchEntry
        { transports := [⟨TKind.other, 0, fun _ => none, fun _ => none⟩,
                         ⟨TKind.other, 2, fun _ => some "boom", fun _ => none⟩],
          beforeHooks := [fun e' => e'],
          afterHooks := [fun e' => e'],
          errorHooks := [fun e' _ _ => e'],
          stEnabled := false, stLevels := fun _ => false }
        { level := 3, timestamp := 0, message := "m", fields := none } none).2
      = [Act.beforeHook 0, Act.write 0, Act.write 1, Act.errHook 0 1 "boom",
         Act.afterHook 0] := by
  have h := dispatch_pipeline_order
    { transports := [⟨TKind.other, 0, fun _ => none, fun _ => none⟩,
                     ⟨TKind.other, 2, fun _ => some "boom", fun _ => none⟩],
      beforeHooks := [fun e' => e'],
      afterHooks := [fun e' => e'],
      errorHooks := [fun e' _ _ => e'],
      stEnabled := false, stLevels := fun _ => false }
    { level := 3, timestamp := 0, message := "m", fields := none } none
    (by
      intro h hm e' j err
      simp only [List.mem_singleton] at hm
      subst hm
      rfl)
  exact h.1

/-- Claim C2: on a normal log call (`Logger.log`, which dispatches with no
formatter override, so every attempt in its trace is an invocation of the
transport's `WriteLog`), transport `j` of the snapshot is invoked if and only
if the call's level is at least that transport's minimum level — so a
transport with a higher minimum never receives an event logged lower, and
always receives one logged at or above it. Hooks are assumed level-preserving
(the spec lets them mutate only fields/stacktrace). -/
theorem transport_level_filter (snap : Snapshot) (now : Nat) (stack : String)
    (lvl : Level) (msg : String) (j : Nat) (hj : j < snap.transports.length)
    (hb : ∀ h ∈ snap.beforeHooks, ∀ e : Entry, (h e).level = e.level)
    (herr : ∀ h ∈ snap.errorHooks, ∀ (e' : Entry) (j' : Nat) (err : Err),
      (h e' j' err).level = e'.level) :
    (Act.write j ∈ (logM snap now stack lvl msg).2
      ↔ (snap.transports.get ⟨j, hj⟩).minLevel ≤ lvl) := by
  have hlev : ((runBefore snap.beforeHooks 0
      (assembleLogEntry snap now stack lvl msg none)).1).level = lvl := by
    rw [runBefore_level snap.beforeHooks hb]
    exact assembleLogEntry_level snap now stack lvl msg none
  simp only [logM, dispatchEntry, List.mem_append]
  rw [runBefore_trace, runAfter_trace]
  constructor
  · rintro ((hmem | hmem) | hmem)
    · rcases List.mem_map.mp hmem with ⟨n, _, hact⟩
      cases hact
    · have hw : Act.write j ∈ (fanout snap.errorHooks none
          (runBefore snap.beforeHooks 0
            (assembleLogEntry snap now stack lvl msg none)).1 0 snap.transports).2.filter
          isWrite := List.mem_filter.mpr ⟨hmem, rfl⟩
      rw [fanout_writes snap.errorHooks none herr, hlev] at hw
      rcases List.mem_map.mp hw with ⟨m, hm, hact⟩
      cases hact
      have hm0 : (0 + j) ∈ permittedIdx lvl 0 snap.transports := by
        simpa using hm
      exact (mem_permittedIdx lvl snap.transports 0 j hj).mp hm0
    · rcases List.mem_map.mp hmem with ⟨n, _, hact⟩
      cases hact
  · intro hmin
    left; right
    have hm0 : (0 + j) ∈ permittedIdx lvl 0 snap.transports :=
      (mem_permittedIdx lvl snap.transports 0 j hj).mpr hmin
    have hw : Act.write j ∈ (fanout snap.errorHooks none
        (runBefore snap.beforeHooks 0
          (assembleLogEntry snap now stack lvl msg none)).1 0 snap.transports).2.filter
        isWrite := by
      rw [fanout_writes snap.errorHooks none herr, hlev]
      exact List.mem_map.mpr ⟨j, by simpa using hm0, rfl⟩
    exact List.mem_of_mem_filter hw

/-- Witness for the C2 theorem: one transport with minimum level `WARN = 2`;
an `INFO = 1` call does not invoke it (the filter is an iff with a false
right-hand side here, and membership is decidable on the concrete trace). -/
theorem transport_level_filter_witness :
    (Act.write 0 ∈ (logM
        { transports := [⟨TKind.other, 2, fun _ => none, fun _ => none⟩],
          beforeHooks := [], afterHooks := [], errorHooks := [],
          stEnabled := false, stLevels := fun _ => false } 0 "" 1 "m").2
      ↔ (2 : Level) ≤ 1) := by
  have h := transport_level_filter
    { transports := [⟨TKind.other, 2, fun _ => none, fun _ => none⟩],
      beforeHooks := [], afterHooks := [], errorHooks := [],
      stEnabled := false, stLevels := fun _ => false } 0 "" 1 "m" 0
    (by decide)
    (by intro h hm; cases hm)
    (by intro h hm; cases hm)
  exact h

/-- Claim C3: when the write attempt on the transport at position
`ts1.length` of the snapshot fails with `err`, the complete dispatch trace
shows every registered error hook invoked exactly once for that failure, in
hook registration order, immediately after that transport's write attempt and
before anything of the remaining fan-out; and the remaining transports are
still attempted exactly as their minimum levels permit (no short-circuiting).
Error hooks are assumed level-preserving (the spec lets hooks touch only
fields/stacktrace). -/
theorem error_hooks_per_failure (snap : Snapshot) (fopt : Option Fmt) (e : Entry)
    (ts1 ts2 : List Transport) (t : Transport) (err : Err)
    (herr : ∀ h ∈ snap.errorHooks, ∀ (e' : Entry) (j' : Nat) (er : Err),
      (h e' j' er).level = e'.level)
    (hts : snap.transports = ts1 ++ t :: ts2)
    (hperm : t.minLevel ≤ ((fanout snap.errorHooks fopt
        (runBefore snap.beforeHooks 0 e).1 0 ts1).1).level)
    (hfail : attemptWrite t
        (fanout snap.errorHooks fopt (runBefore snap.beforeHooks 0 e).1 0 ts1).1 fopt
      = some err) :
    (dispatchEntry snap e fopt).2
      = (List.range' 0 snap.beforeHooks.length).map Act.beforeHook
        ++ ((fanout snap.errorHooks fopt (runBefore snap.beforeHooks 0 e).1 0 ts1).2
        ++ Act.write ts1.length
          :: ((List.range' 0 snap.errorHooks.length).map
                (fun i => Act.errHook i ts1.length err)
        ++ ((fanout snap.errorHooks fopt
              (runErrHooks snap.errorHooks 0
                (fanout snap.errorHooks fopt (runBefore snap.beforeHooks 0 e).1 0 ts1).1
                ts1.length err).1
              (ts1.length + 1) ts2).2
        ++ (List.range' 0 snap.afterHooks.length).map Act.afterHook)))
    ∧ ((fanout snap.errorHooks fopt
          (runErrHooks snap.errorHooks 0
            (fanout snap.errorHooks fopt (runBefore snap.beforeHooks 0 e).1 0 ts1).1
            ts1.length err).1
          (ts1.length + 1) ts2).2).filter isWrite
        = (permittedIdx ((runBefore snap.beforeHooks 0 e).1).level (ts1.length + 1)
            ts2).map Act.write := by
  have hem : ((fanout snap.errorHooks fopt (runBefore snap.beforeHooks 0 e).1 0
      ts1).1).level = ((runBefore snap.beforeHooks 0 e).1).level :=
    fanout_level snap.errorHooks fopt herr ts1 _ 0
  have hre : ((runErrHooks snap.errorHooks 0
      (fanout snap.errorHooks fopt (runBefore snap.beforeHooks 0 e).1 0 ts1).1
      ts1.length err).1).level
      = ((fanout snap.errorHooks fopt (runBefore snap.beforeHooks 0 e).1 0
          ts1).1).level :=
    runErrHooks_level snap.errorHooks herr 0 _ ts1.length err
  constructor
  · simp only [dispatchEntry]
    rw [runBefore_trace, runAfter_trace, hts,
      fanout_append snap.errorHooks fopt ts1 (t :: ts2)]
    simp only [Nat.zero_add, fanout, if_pos hperm, hfail]
    rw [runErrHooks_trace]
    simp [List.append_assoc]
  · rw [fanout_writes snap.errorHooks fopt herr, hre, hem]

/-- Witness for the C3 theorem on a concrete snapshot with two error hooks and
transports ok/fail/ok: both hooks fire right after the failing write, and the
third transport is still attempted. -/
theorem error_hooks_per_failure_witness :
    (dispatchEntry
        { transports := [⟨TKind.other, 0, fun _ => none, fun _ => none⟩,
                         ⟨TKind.other, 0, fun _ => some "boom", fun _ => none⟩,
                         ⟨TKind.other, 0, fun _ => none, fun _ => none⟩],
          beforeHooks := [], afterHooks := [],
          errorHooks := [fun e' _ _ => e', fun e' _ _ => e'],
          stEnabled := false, stLevels := fun _ => false }
        { level := 1, timestamp := 0, message := "m", fields := none } none).2
      = [Act.write 0, Act.write 1, Act.errHook 0 1 "boom", Act.errHook 1 1 "boom",
         Act.write 2] := by
  have h := error_hooks_per_failure
    { transports := [⟨TKind.other, 0, fun _ => none, fun _ => none⟩,
                     ⟨TKind.other, 0, fun _ => some "boom", fun _ => none⟩,
                     ⟨TKind.other, 0, fun _ => none, fun _ => none⟩],
      beforeHooks := [], afterHooks := [],
      errorHooks := [fun e' _ _ => e', fun e' _ _ => e'],
      stEnabled := false, stLevels := fun _ => false } none
    { level := 1, timestamp := 0, message := "m", fields := none }
    [⟨TKind.other, 0, fun _ => none, fun _ => none⟩]
    [⟨TKind.other, 0, fun _ => none, fun _ => none⟩]
    ⟨TKind.other, 0, fun _ => some "boom", fun _ => none⟩ "boom"
    (by
      intro h hm e' j' er
      simp only [List.mem_cons, List.mem_singleton] at hm
      rcases hm with rfl | rfl | hm
      · rfl
      · rfl
      · cases hm)
    rfl (by decide) rfl
  exact h.1

/-- Claim C8: in this embedding every transport write and every formatter call
is a total function that merely returns an error value, and under exactly that
hypothesis each of the normal calls `Debug`/`Info`/`Warn`/`Error` completes
its full dispatch and hands control back with a normal outcome, for every
snapshot and input; the only calls whose outcome is a caller-visible
termination are the explicit `Fatal` (process exit 1) and `Panic` (a Go panic
carrying the message). -/
theorem normal_calls_no_panic (snap : Snapshot) (now : Nat) (stack : String)
    (msg : String) (fields : Option Fields) :
    (debugRun snap now stack msg).2 = Outcome.normal
    ∧ (infoRun snap now stack msg).2 = Outcome.normal
    ∧ (warnRun snap now stack msg).2 = Outcome.normal
    ∧ (errorRun snap now stack msg).2 = Outcome.normal
    ∧ (fatalRun snap now stack msg fields).2 = Outcome.exit 1
    ∧ (panicRun snap now stack msg fields).2 = Outcome.panicked msg :=
  ⟨rfl, rfl, rfl, rfl, rfl, rfl⟩

/-- Claim C9 (counterexample): `EmojiFormatter.Format` is not a pure function
of the event — with the shipped `TextFormatter` as its base, formatting an
INFO entry whose field map is nil stores `"emoji"` into the entry's field map
(materializing the map), so the entry coming back differs from the one that
went in. -/
theorem emoji_formatter_mutates_cex :
    ¬ ((EmojiFormatter.format
        (fun e' => TextFormatter.format
          { tsFmt := fun _ _ => "", showV := fun _ => "",
            marshal := fun _ => Except.ok "", reg := builtinRegistry }
          { TimestampFormat := "" } e')
        { level := INFO, timestamp := 0, message := "m", fields := none }).1
      = { level := INFO, timestamp := 0, message := "m", fields := none }) := by
  intro h
  have hf := congrArg Entry.fields h
  simp [EmojiFormatter.format, TextFormatter.format] at hf

/-- Claim C9 (amended): `TextFormatter.Format` and `JSONFormatter.Format` are
pure — the event, field map included, comes back exactly as given — but
`EmojiFormatter.Format` is not: it writes the level's emoji into the event's
field map under the key `"emoji"` (materializing the map when nil) before
delegating to its base formatter, and with the shipped `TextFormatter` base
the mutated field is observable on the returned entry. -/
theorem shipped_formatter_purity (env : GoEnv) (cfg : TextFormatter)
    (e : Entry) :
    (TextFormatter.format env cfg e).1 = e
    ∧ (JSONFormatter.format env e).1 = e
    ∧ aget (((EmojiFormatter.format (TextFormatter.format env cfg) e).1).fields.getD [])
        "emoji" = some (FValue.str (levelEmojis e.level)) := by
  refine ⟨rfl, rfl, ?_⟩
  simp only [EmojiFormatter.format, TextFormatter.format]
  exact aget_aset_same _ "emoji" _

/-- Claim C10: with a per-call formatter override whose formatting succeeds,
a permitted transport that is not of the four recognized concrete kinds is
reached through its normal `WriteLog`, applied to a freshly constructed entry
whose message is the formatted bytes and whose level, timestamp and fields are
zero-valued — nothing of the original event is passed through. -/
theorem writeFormatted_default_fresh_entry (t : Transport) (e : Entry) (f : Fmt)
    (s : String) (hk : t.kind = TKind.other) (hfmt : f e = Except.ok s) :
    attemptWrite t e (some f)
      = t.writeLog { level := 0, timestamp := 0, message := s, fields := none }
    ∧ writeFormatted t s
      = t.writeLog { level := 0, timestamp := 0, message := s, fields := none } := by
  constructor
  · simp [attemptWrite, hfmt, writeFormatted, hk]
  · simp [writeFormatted, hk]

/-- Witness for the C10 theorem: a transport of unrecognized kind whose
`WriteLog` echoes the entry's message sees only the override-formatted bytes,
not the original message, level, timestamp or fields. -/
theorem writeFormatted_default_fresh_entry_witness :
    attemptWrite ⟨TKind.other, 0, fun e' => some e'.message, fun _ => none⟩
      { level := 3, timestamp := 7, message := "orig", fields := some [] }
      (some (fun _ => Except.ok "payload"))
      = some "payload" := by
  have h := writeFormatted_default_fresh_entry
    ⟨TKind.other, 0, fun e' => some e'.message, fun _ => none⟩
    { level := 3, timestamp := 7, message := "orig", fields := some [] }
    (fun _ => Except.ok "payload") "payload" rfl rfl
  exact h.1

/-- Claim C5 (counterexample): `SyslogTransport.WriteLog` has no fallback path
— when its formatter errors it writes nothing to the syslog writer and returns
the formatting error itself (here `"fmtboom"`, even though every sink write
would have succeeded), not a fallback write's error. -/
theorem syslog_no_fallback_cex :
    (syslogWriteLog
        { tsFmt := fun _ _ => "ts", showV := fun _ => "",
          marshal := fun _ => Except.ok "", reg := builtinRegistry }
        (some (fun _ => Except.error "fmtboom")) (fun _ _ => none)
        { level := INFO, timestamp := 0, message := "m", fields := none })
      = ([], some "fmtboom") := rfl

/-- Claim C5 (amended): when the formatter in effect for a write errors, each
of the four writer-style transports (`WriterTransport`, `ConsoleTransport`,
`FileTransport`, `LumberjackTransport`) writes the minimal fixed-layout line
`timestamp [LEVEL] message` directly to its underlying sink and reports that
fallback write's own error upstream — but `SyslogTransport` reports the
formatting error with no fallback write, and the dispatch engine's per-call
formatter-override path likewise reports the formatting error directly. -/
theorem format_error_fallback (env : GoEnv) (f : Fmt) (sink : String → Option Err)
    (ssink : SysPrio → String → Option Err) (t : Transport) (e : Entry) (ferr : Err)
    (hf : f e = Except.error ferr) :
    consoleWriteLog env (some f) sink e
      = ([fallbackLine env e], sink (fallbackLine env e))
    ∧ fileWriteLog env f sink e = ([fallbackLine env e], sink (fallbackLine env e))
    ∧ writerWriteLog env f sink e = ([fallbackLine env e], sink (fallbackLine env e))
    ∧ lumberjackWriteLog env (some f) sink e
      = ([fallbackLine env e], sink (fallbackLine env e))
    ∧ syslogWriteLog env (some f) ssink e = ([], some ferr)
    ∧ attemptWrite t e (some f) = some ferr := by
  refine ⟨?_, ?_, ?_, ?_, ?_, ?_⟩ <;>
    simp [consoleWriteLog, fileWriteLog, writerWriteLog, lumberjackWriteLog,
      syslogWriteLog, attemptWrite, hf]

/-- Witness for the amended C5 theorem at a concrete input: the console
transport writes the fallback line and reports the sink's error `"sinkerr"`,
while the syslog transport reports the formatting error `"boom"` directly. -/
theorem format_error_fallback_witness :
    consoleWriteLog
        { tsFmt := fun ts _ => toString ts, showV := fun _ => "",
          marshal := fun _ => Except.ok "", reg := builtinRegistry }
        (some (fun _ => Except.error "boom")) (fun _ => some "sinkerr")
        { level := WARN, timestamp := 5, message := "m", fields := none }
      = ([fallbackLine
            { tsFmt := fun ts _ => toString ts, showV := fun _ => "",
              marshal := fun _ => Except.ok "", reg := builtinRegistry }
            { level := WARN, timestamp := 5, message := "m", fields := none }],
         some "sinkerr")
    ∧ syslogWriteLog
        { tsFmt := fun ts _ => toString ts, showV := fun _ => "",
          marshal := fun _ => Except.ok "", reg := builtinRegistry }
        (some (fun _ => Except.error "boom")) (fun _ _ => none)
        { level := WARN, timestamp := 5, message := "m", fields := none }
      = ([], some "boom") := by
  have h := format_error_fallback
    { tsFmt := fun ts _ => toString ts, showV := fun _ => "",
      marshal := fun _ => Except.ok "", reg := builtinRegistry }
    (fun _ => Except.error "boom") (fun _ => some "sinkerr") (fun _ _ => none)
    ⟨TKind.other, 0, fun _ => none, fun _ => none⟩
    { level := WARN, timestamp := 5, message := "m", fields := none } "boom" rfl
  exact ⟨h.1, h.2.2.2.2.1⟩
